import Mathlib

/-!
Verification of the model-repository unit (mlmodel.h) of deepdetect.

The C++ class dd::MLModel is shallowly embedded: its pure string
manipulations become Lean functions over `List Char`/`String`, its
collaborators (fileops, httpclient, rapidjson, ifstream, the simsearch
backend) become an environment record of response functions, and the side
effects issued to collaborators are recorded as an ordered trace.  All
definitions are structural recursions so that concrete runs evaluate by
kernel reduction.
-/

set_option autoImplicit false

namespace DD

/-- C-locale isspace: the whitespace set skipped by std::stoi. -/
def isCSpace (c : Char) : Bool :=
  c = ' ' || c = '\t' || c = '\n' || c = Char.ofNat 11 || c = Char.ofNat 12 || c = '\r'

/-- Value of a run of decimal digits. -/
def digitsVal (l : List Char) : Nat :=
  l.foldl (fun a c => a * 10 + (c.toNat - '0'.toNat)) 0

/-- Model of C++ std::stoi in base 10: skip leading whitespace, allow one
sign character, then require a nonempty digit run (otherwise
std::invalid_argument is thrown); the value must fit a 32-bit int
(otherwise std::out_of_range).  `none` models a thrown exception; trailing
non-digit characters are ignored, as stoi stops at the first non-digit. -/
def stoi (s : String) : Option Int :=
  let cs := s.data.dropWhile isCSpace
  let signed : Int × List Char :=
    match cs with
    | '-' :: r => (-1, r)
    | '+' :: r => (1, r)
    | _ => (1, cs)
  let digs := signed.2.takeWhile Char.isDigit
  if digs.isEmpty then none
  else
    let v : Int := signed.1 * (digitsVal digs : Int)
    if v < -(2 ^ 31) ∨ v > 2 ^ 31 - 1 then none else some v

/-- Split a character list at every occurrence of c (auxiliary). -/
def splitOnCharAux (c : Char) (acc : List Char) : List Char → List (List Char)
  | [] => [acc.reverse]
  | x :: xs =>
    if x = c then acc.reverse :: splitOnCharAux c [] xs
    else splitOnCharAux c (x :: acc) xs

/-- The successive lines produced by the eof-controlled std::getline loop of
read_corresp_file on a file holding content: splitting at every newline,
with a trailing newline yielding a final empty line (which the loop also
reads and then skips, its key being empty). -/
def linesOf (content : String) : List (List Char) :=
  splitOnCharAux '\n' [] content.data

/-- line.substr(0, line.find(' ')): the segment before the first space, the
whole line when there is none (find returns npos). -/
def lineKey (l : List Char) : List Char :=
  l.takeWhile (fun c => c != ' ')

/-- line.substr(line.find(' ') + 1): the segment after the first space; with
no space, npos + 1 wraps to 0 and the whole line is returned. -/
def lineValue (l : List Char) : List Char :=
  if l.contains ' ' then (l.dropWhile (fun c => c != ' ')).drop 1 else l

/-- Association-list model of std::unordered_map<int, std::string>. -/
abbrev HMap := List (Int × String)

/-- unordered_map::insert: no effect when the key is already present. -/
def hmapInsert (h : HMap) (k : Int) (v : String) : HMap :=
  if h.any (fun p => p.1 == k) then h else h ++ [(k, v)]

/-- unordered_map::find, as an Option. -/
def hmapFind (h : HMap) (k : Int) : Option String :=
  (h.find? (fun p => p.1 == k)).map Prod.snd

/-- unordered_map::operator[]: when the key is absent, value-initialise the
mapped string (empty) and insert it; return the mapped value and the map
after the call. -/
def hmapBracket (h : HMap) (k : Int) : String × HMap :=
  match hmapFind h k with
  | some v => (v, h)
  | none => ("", h ++ [(k, "")])

/-- List-level substring machinery for std::string::find on patterns. -/
def isPrefixOfL : List Char → List Char → Bool
  | [], _ => true
  | _ :: _, [] => false
  | a :: as, b :: bs => a == b && isPrefixOfL as bs

def isInfixOfL (pat : List Char) : List Char → Bool
  | [] => isPrefixOfL pat []
  | x :: rest => isPrefixOfL pat (x :: rest) || isInfixOfL pat rest

/-- s.find(pat) != std::string::npos: pat occurs somewhere in s. -/
def strContains (s pat : String) : Bool :=
  isInfixOfL pat.data s.data

/-- The fetch condition of init_repo_dir (mlmodel.h lines 243-245): one of
the three scheme substrings occurs ANYWHERE in the string (std::string::find,
not a whole-string or position-0 test). -/
def hasSchemeSub (s : String) : Bool :=
  strContains s "https://" || strContains s "http://" || strContains s "file://"

/-- compressedf.substr(compressedf.find_last_of("/") + 1) (line 232): the
segment after the last path separator; with no separator, npos + 1 wraps to
0 and the whole locator is the base name. -/
def baseNameOf (s : String) : String :=
  String.mk ((s.data.reverse.takeWhile (fun c => c != '/')).reverse)

/-- Values held by the APIData parameter store for the keys mlmodel.h
touches.  Modelled from the spec: apidata.h is an external collaborator
(spec §6, Parameter store): strings, booleans, nested objects. -/
inductive APIVal where
  | str : String → APIVal
  | boolean : Bool → APIVal
  | obj : List (String × APIVal) → APIVal

/-- The APIData parameter store, a key/value mapping.  Modelled from the
spec: §6 specifies has/get, a mutable add(key, nestedStore), and object
extraction (getobj). -/
structure APIData where
  kv : List (String × APIVal)

/-- Replace-or-append on a key/value list. -/
def setKV : List (String × APIVal) → String → APIVal → List (String × APIVal)
  | [], k, v => [(k, v)]
  | (k0, v0) :: rest, k, v =>
    if k0 == k then (k, v) :: rest else (k0, v0) :: setKV rest k v

/-- Modelled from the spec: APIData::add(key, nestedStore) stores a nested
parameter object under the key. -/
def APIData.add (a : APIData) (k : String) (v : APIData) : APIData :=
  ⟨setKV a.kv k (APIVal.obj v.kv)⟩

/-- Modelled from the spec: APIData::getobj(key) extracts the nested object
stored under the key (empty when absent or not an object). -/
def APIData.getobj (a : APIData) (k : String) : APIData :=
  match a.kv.find? (fun p => p.1 == k) with
  | some (_, APIVal.obj o) => ⟨o⟩
  | _ => ⟨[]⟩

/-- Tuning fields of the FAISS backend engine.  simsearch.h is an external
collaborator; the backend defaults are supplied as a value of this
structure at engine creation. -/
structure FaissSE where
  index_key : String
  train_samples_size : Int
  ondisk : Bool
  nprobe : Int
deriving DecidableEq

/-- SearchEngine<FaissSE>(dim, repo): dimension, repository path, backend
object _tse. -/
structure SearchEngine where
  dim : Int
  repo : String
  tse : FaissSE
deriving DecidableEq

/-- The nullable tuning fields of DTO::OutputConnector read by
create_sim_search (null pointer = field not supplied). -/
structure OutputConnector where
  index_type : Option String := none
  train_samples : Option Int := none
  ondisk : Option Bool := none
  nprobe : Option Int := none
deriving DecidableEq

/-- Lifecycle calls issued to the backend search engine. -/
inductive SECall where
  | createIndex
  | updateIndex
  | removeIndex
deriving DecidableEq

/-- The dd::MLModel state (USE_SIMSEARCH build with the FAISS backend
variant), fields per mlmodel.h lines 177-192. -/
structure MLModel where
  repo : String := ""
  mlmodel_template_repo : String := "templates/"
  hcorresp : HMap := []
  corresp : String := ""
  best_model_filename : String := "/best_model.txt"
  se : Option SearchEngine := none
  index_preload : Bool := false
deriving DecidableEq

/-- Kind of filesystem entry reported by fileops::file_exists(path, isDir):
dir when isDir, file for any non-directory entry. -/
inductive FsEntry where
  | file
  | dir
deriving DecidableEq

/-- Responses of the external collaborators (fileops, httpclient, the
ifstream/stringstream reads, rapidjson), per the interfaces consumed by
mlmodel.h.  A value of this structure fixes every collaborator answer:
fsEntry models fileops::file_exists (none = absent), writable models
fileops::is_directory_writable, httpGet models httpclient::get_call (none =
a thrown transport exception), uncompressFails the nonzero return of
fileops::uncompress, openFile the ifstream constructor (none = not
openable), readFile the buffered read of an existing file, parseOk the
absence of a rapidjson parse error, fromRapidJson the conversion
APIData::fromRapidJson (none = RapidjsonException). -/
structure Env where
  fsEntry : String → Option FsEntry
  writable : String → Bool
  httpGet : String → Option String
  uncompressFails : String → String → Bool
  openFile : String → Option String
  readFile : String → String
  parseOk : String → Bool
  fromRapidJson : String → Option APIData

/-- The failure classes raised as MLLibBadParamException (spec §7 names). -/
inductive MLErr where
  | repositoryConflict
  | repositoryNotWritable
  | archiveFetchFailed
  | archiveInstallFailed
  | configParse
  | configConversion
deriving DecidableEq

/-- Outcome of init_repo_dir: normal return, a thrown
MLLibBadParamException, or the crash of dereferencing a null logger
(logger->error with logger == nullptr) inside a fatal branch. -/
inductive InitOut where
  | ok
  | err : MLErr → InitOut
  | nullDeref
deriving DecidableEq

/-- Side-effecting collaborator calls issued by init_repo_dir, in program
order: fileops::create_dir (mode 0775), the is_directory_writable check,
httpclient::get_call, the ofstream write of the fetched bytes, and
fileops::uncompress. -/
inductive Call where
  | createDir : String → Call
  | isWritableCheck : String → Call
  | fetch : String → Call
  | writeFile : String → Call
  | uncompressCall : String → String → Call
deriving DecidableEq

/-- The values init_repo_dir reads from its APIData argument:
ad.get("repository"), ad.has("create_repository") && its value,
ad.has("init") with its value, ad.has("index_preload") && its value. -/
structure AdArgs where
  repository : String
  create_repository : Bool := false
  init : Option String := none
  index_preload : Bool := false
deriving DecidableEq

/-- modelf = _repo + "/" + base_model_fname (line 233). -/
def modelfOf (repo c : String) : String :=
  repo ++ "/" ++ baseNameOf c

/-- The value of compressedf after the staged-file short-circuit (lines
230-241): the in-repository staged path when a file with the derived base
name already exists there, the original locator otherwise. -/
def compressedfOf (env : Env) (repo c : String) : String :=
  if (env.fsEntry (modelfOf repo c)).isSome then modelfOf repo c else c

/-- init_repo_dir (mlmodel.h lines 195-284), non-Windows build.  `logger`
is false when a nullptr logger was passed (the MLModel(ad) and
MLModel(ad, repo) constructors); every fatal branch then executes
logger->error on the null pointer, modelled as InitOut.nullDeref, before
reaching its throw.  The guarded branches (staged-archive warn, download
info) test the pointer first.  The second component records the
collaborator side effects in order. -/
def init_repo_dir (env : Env) (ad : AdArgs) (logger : Bool) : InitOut × List Call :=
  let repo := ad.repository
  if env.fsEntry repo = some FsEntry.file then
    -- exists && !isDir: conflict, thrown before any other step
    (if logger then InitOut.err MLErr.repositoryConflict else InitOut.nullDeref, [])
  else
    let t0 : List Call :=
      if (env.fsEntry repo).isNone && ad.create_repository then [Call.createDir repo] else []
    let t1 := t0 ++ [Call.isWritableCheck repo]
    if !(env.writable repo) then
      (if logger then InitOut.err MLErr.repositoryNotWritable else InitOut.nullDeref, t1)
    else
      match ad.init with
      | none => (InitOut.ok, t1)
      | some compressedf0 =>
        let modelf := modelfOf repo compressedf0
        let compressedf1 := compressedfOf env repo compressedf0
        if hasSchemeSub compressedf1 then
          match env.httpGet compressedf1 with
          | none =>
            (if logger then InitOut.err MLErr.archiveFetchFailed else InitOut.nullDeref,
             t1 ++ [Call.fetch compressedf1])
          | some _content =>
            let t2 := t1 ++ [Call.fetch compressedf1, Call.writeFile modelf]
            if env.uncompressFails modelf repo then
              (if logger then InitOut.err MLErr.archiveInstallFailed else InitOut.nullDeref,
               t2 ++ [Call.uncompressCall modelf repo])
            else
              (InitOut.ok, t2 ++ [Call.uncompressCall modelf repo])
        else
          if env.uncompressFails compressedf1 repo then
            (if logger then InitOut.err MLErr.archiveInstallFailed else InitOut.nullDeref,
             t1 ++ [Call.uncompressCall compressedf1 repo])
          else
            (InitOut.ok, t1 ++ [Call.uncompressCall compressedf1 repo])

/-- read_config_json (mlmodel.h lines 286-315): overlay config.json found
directly under the repository onto the caller-supplied adg.  The result is
the thrown failure (none when no exception) together with the final adg;
the single mutation adg.add("parameters", ...) is the last statement, so
every thrown path leaves adg exactly as supplied. -/
def read_config_json (env : Env) (repo : String) (adg : APIData) :
    Option MLErr × APIData :=
  let cf := repo ++ "/config.json"
  if (env.fsEntry cf).isNone then (none, adg)
  else
    let jbuf := env.readFile cf
    if !(env.parseOk jbuf) then (some MLErr.configParse, adg)
    else
      match env.fromRapidJson jbuf with
      | none => (some MLErr.configConversion, adg)
      | some adcj => (none, adg.add "parameters" (adcj.getobj "parameters"))

/-- Result of running the MLModel(ad, adg, logger) constructor. -/
structure CtorResult where
  out : InitOut
  model : MLModel
  adg : APIData
  trace : List Call

/-- The MLModel(const APIData&, APIData&, logger) constructor (lines
49-55): init_repo_dir with the supplied (non-null) logger, then
read_config_json exactly when "init" is present. -/
def mlmodel_ctor (env : Env) (ad : AdArgs) (adg : APIData) : CtorResult :=
  let r := init_repo_dir env ad true
  let m : MLModel := { repo := ad.repository, index_preload := ad.index_preload }
  match r.1 with
  | InitOut.ok =>
    if ad.init.isSome then
      let c := read_config_json env ad.repository adg
      match c.1 with
      | none => ⟨InitOut.ok, m, c.2, r.2⟩
      | some e => ⟨InitOut.err e, m, c.2, r.2⟩
    else ⟨InitOut.ok, m, adg, r.2⟩
  | o => ⟨o, m, adg, r.2⟩

/-- The line loop of read_corresp_file (lines 88-99): for each getline
line, the key is the segment before the first space; a line with an empty
key is skipped; otherwise std::stoi(key) is called (its exception escapes
uncaught, modelled by Except.error) and the pair (stoi(key), value) is
inserted. -/
def corresp_lines (h : HMap) : List (List Char) → Except Unit HMap
  | [] => Except.ok h
  | l :: rest =>
    if (lineKey l).isEmpty then corresp_lines h rest
    else
      match stoi (String.mk (lineKey l)) with
      | none => Except.error ()
      | some k => corresp_lines (hmapInsert h k (String.mk (lineValue l))) rest

/-- read_corresp_file (lines 78-102): nothing when _corresp is empty; when
the file cannot be opened, print to stderr and leave the map as it is
(non-fatal); otherwise run the line loop starting from the current map. -/
def read_corresp_file (env : Env) (corresp : String) (h : HMap) : Except Unit HMap :=
  if corresp = "" then Except.ok h
  else
    match env.openFile corresp with
    | none => Except.ok h
    | some content => corresp_lines h (linesOf content)

/-- get_hcorresp (lines 104-110): when the table is empty, return
std::to_string(i); otherwise return _hcorresp[i] — operator[], which for an
absent key inserts a value-initialised (empty) label and returns it.  The
second component is the object state after the call. -/
def get_hcorresp (m : MLModel) (i : Int) : String × MLModel :=
  if m.hcorresp.isEmpty then (toString i, m)
  else
    let r := hmapBracket m.hcorresp i
    (r.1, { m with hcorresp := r.2 })

/-- create_sim_search (lines 116-147), USE_FAISS (non-GPU) build: only when
_se is null, construct SearchEngine<FaissSE>(dim, _repo) with backend
defaults dflt, overwrite each tuning field whose OutputConnector entry is
non-null, and call create_index() on the new engine.  The second component
lists the backend calls made. -/
def create_sim_search (dflt : FaissSE) (m : MLModel) (dim : Int)
    (output_params : OutputConnector) : MLModel × List SECall :=
  match m.se with
  | some _ => (m, [])
  | none =>
    let tse : FaissSE :=
      { index_key := output_params.index_type.getD dflt.index_key
        train_samples_size := output_params.train_samples.getD dflt.train_samples_size
        ondisk := output_params.ondisk.getD dflt.ondisk
        nprobe := output_params.nprobe.getD dflt.nprobe }
    ({ m with se := some { dim := dim, repo := m.repo, tse := tse } },
     [SECall.createIndex])

/-- create_index (lines 152-156): forwarded only when an engine exists. -/
def create_index (m : MLModel) : MLModel × List SECall :=
  match m.se with
  | some _ => (m, [SECall.createIndex])
  | none => (m, [])

/-- build_index (lines 161-165): _se->update_index() when an engine exists,
silently nothing otherwise. -/
def build_index (m : MLModel) : MLModel × List SECall :=
  match m.se with
  | some _ => (m, [SECall.updateIndex])
  | none => (m, [])

/-- remove_index (lines 170-174): _se->remove_index() when an engine
exists, silently nothing otherwise. -/
def remove_index (m : MLModel) : MLModel × List SECall :=
  match m.se with
  | some _ => (m, [SECall.removeIndex])
  | none => (m, [])

/-! Concrete collaborator environments and inputs used to evaluate the
embedding on closed runs. -/

/-- A collaborator environment with inert answers, overridden pointwise in
the concrete instances below. -/
def envBase : Env :=
  { fsEntry := fun _ => none
    writable := fun _ => true
    httpGet := fun _ => none
    uncompressFails := fun _ _ => false
    openFile := fun _ => none
    readFile := fun _ => ""
    parseOk := fun _ => true
    fromRapidJson := fun _ => none }

/-- The two-entry correspondence file of the spec example. -/
def correspContent : String := "3 cat\n5 dog\n"

def envC1 : Env := { envBase with openFile := fun _ => some correspContent }

def envC2 : Env :=
  { envBase with
    fsEntry := fun p => if p = "r/config.json" then some FsEntry.file else none
    readFile := fun _ => "this is not json"
    parseOk := fun _ => false }

def adgW : APIData := ⟨[("x", APIVal.str "y")]⟩

def envC4 : Env :=
  { envBase with fsEntry := fun p => if p = "p" then some FsEntry.file else none }

def adC4 : AdArgs := { repository := "p" }

def envC3 : Env :=
  { envBase with
    fsEntry := fun p =>
      if p = "http://r" then some FsEntry.dir
      else if p = "http://r/m.tar" then some FsEntry.file else none
    httpGet := fun _ => some "bytes" }

def adC3 : AdArgs := { repository := "http://r", init := some "m.tar" }

def envC3w : Env :=
  { envBase with
    fsEntry := fun p =>
      if p = "r" then some FsEntry.dir
      else if p = "r/m.tar" then some FsEntry.file else none }

def adC3w : AdArgs := { repository := "r", init := some "http://host/m.tar" }

def envC10 : Env :=
  { envBase with fsEntry := fun p => if p = "r" then some FsEntry.dir else none }

def adC10 : AdArgs := { repository := "r", init := some "/tmp/http://mirror/m.tar" }

def adC10b : AdArgs := { repository := "r", init := some "/tmp/m.tar" }

def envC9 : Env := { envBase with openFile := fun _ => some "3 cat\nfoo bar\n" }

/-! Theorems. -/

theorem hmapFind_nonempty {h : HMap} {k : Int} {v : String}
    (hv : hmapFind h k = some v) : h.isEmpty = false := by
  cases h with
  | nil => simp [hmapFind] at hv
  | cons a t => rfl

/-- C1 counterexample: loading a file containing "3 cat\n5 dog\n" gives the
two-entry table; lookups of present keys return their labels, but lookup of
the absent key 7 returns "" (operator[] on the non-empty map), not "7". -/
theorem c1_counterexample :
    read_corresp_file envC1 "corresp.txt" [] = Except.ok [(3, "cat"), (5, "dog")] ∧
    (get_hcorresp { repo := "r", hcorresp := [(3, "cat"), (5, "dog")] } 3).1 = "cat" ∧
    (get_hcorresp { repo := "r", hcorresp := [(3, "cat"), (5, "dog")] } 5).1 = "dog" ∧
    (get_hcorresp { repo := "r", hcorresp := [(3, "cat"), (5, "dog")] } 7).1 ≠ "7" := by
  refine ⟨rfl, rfl, rfl, ?_⟩
  decide

/-- C1 (amended): get_hcorresp returns the stored label when i is present;
it returns the decimal string representation of i only when the whole table
is empty; when the table is non-empty and i is absent it returns the empty
string.  It never throws (it is a total function of the state). -/
theorem c1_get_hcorresp (m : MLModel) (i : Int) :
    (∀ v, hmapFind m.hcorresp i = some v → (get_hcorresp m i).1 = v) ∧
    (m.hcorresp = [] → (get_hcorresp m i).1 = toString i) ∧
    (m.hcorresp ≠ [] → hmapFind m.hcorresp i = none → (get_hcorresp m i).1 = "") := by
  refine ⟨?_, ?_, ?_⟩
  · intro v hv
    simp [get_hcorresp, hmapFind_nonempty hv, hmapBracket, hv]
  · intro h0
    simp [get_hcorresp, h0]
  · intro hne hnone
    cases hmc : m.hcorresp with
    | nil => exact absurd hmc hne
    | cons a t => simp [get_hcorresp, hmc, hmapBracket, hmc ▸ hnone]

theorem c1_get_hcorresp_witness :
    (get_hcorresp { repo := "r", hcorresp := [(3, "cat"), (5, "dog")] } 3).1 = "cat" ∧
    (get_hcorresp { repo := "r", hcorresp := [(3, "cat"), (5, "dog")] } 7).1 = "" :=
  ⟨(c1_get_hcorresp { repo := "r", hcorresp := [(3, "cat"), (5, "dog")] } 3).1 "cat" rfl,
   (c1_get_hcorresp { repo := "r", hcorresp := [(3, "cat"), (5, "dog")] } 7).2.2
     (by decide) rfl⟩

/-- C7 counterexample: get_hcorresp mutates the table: on the non-empty
table [(3, cat)], looking up the absent key 7 inserts an entry. -/
theorem c7_counterexample :
    (get_hcorresp { repo := "r", hcorresp := [(3, "cat")] } 7).2.hcorresp ≠ [(3, "cat")] := by
  decide

/-- C7 (amended): get_hcorresp leaves _hcorresp unchanged exactly when the
table is empty or i is present; when the table is non-empty and i absent,
operator[] appends the entry (i, ""). -/
theorem c7_get_hcorresp_frame (m : MLModel) (i : Int) :
    (m.hcorresp = [] ∨ (hmapFind m.hcorresp i).isSome → (get_hcorresp m i).2 = m) ∧
    (m.hcorresp ≠ [] → hmapFind m.hcorresp i = none →
      (get_hcorresp m i).2.hcorresp = m.hcorresp ++ [(i, "")]) := by
  constructor
  · intro h
    rcases h with h0 | hs
    · simp [get_hcorresp, h0]
    · obtain ⟨v, hv⟩ := Option.isSome_iff_exists.mp hs
      simp [get_hcorresp, hmapFind_nonempty hv, hmapBracket, hv]
  · intro hne hnone
    cases hmc : m.hcorresp with
    | nil => exact absurd hmc hne
    | cons a t => simp [get_hcorresp, hmc, hmapBracket, hmc ▸ hnone]

theorem c7_get_hcorresp_frame_witness :
    (get_hcorresp { repo := "r", hcorresp := [(3, "cat")] } 3).2 =
      { repo := "r", hcorresp := [(3, "cat")] } ∧
    (get_hcorresp { repo := "r", hcorresp := [(3, "cat")] } 7).2.hcorresp =
      [(3, "cat"), (7, "")] :=
  ⟨(c7_get_hcorresp_frame { repo := "r", hcorresp := [(3, "cat")] } 3).1 (Or.inr (by decide)),
   (c7_get_hcorresp_frame { repo := "r", hcorresp := [(3, "cat")] } 7).2 (by decide) rfl⟩

/-- C2: when config.json is absent under the repository, read_config_json
is a no-op that raises nothing and leaves adg untouched; when it is present
but rapidjson reports a parse error, the ConfigParseError bad-parameter
failure is thrown and adg is left exactly as supplied. -/
theorem c2_read_config_json (env : Env) (repo : String) (adg : APIData) :
    ((env.fsEntry (repo ++ "/config.json")).isNone →
        read_config_json env repo adg = (none, adg)) ∧
    (∀ e, env.fsEntry (repo ++ "/config.json") = some e →
        env.parseOk (env.readFile (repo ++ "/config.json")) = false →
        read_config_json env repo adg = (some MLErr.configParse, adg)) := by
  constructor
  · intro h
    simp [read_config_json, h]
  · intro e he hp
    simp [read_config_json, he, hp]

theorem c2_read_config_json_witness :
    read_config_json envC2 "r" adgW = (some MLErr.configParse, adgW) ∧
    read_config_json envC2 "q" adgW = (none, adgW) :=
  ⟨(c2_read_config_json envC2 "r" adgW).2 FsEntry.file rfl rfl,
   (c2_read_config_json envC2 "q" adgW).1 rfl⟩

/-- C4: when a non-directory entry occupies the repository path, the
constructor fails with the repository-conflict bad-parameter error, with an
empty collaborator trace (no directory creation, no writability check, no
fetch, no extraction) and the overlay adg untouched (no config load). -/
theorem c4_repository_conflict (env : Env) (ad : AdArgs) (adg : APIData)
    (h : env.fsEntry ad.repository = some FsEntry.file) :
    mlmodel_ctor env ad adg =
      ⟨InitOut.err MLErr.repositoryConflict,
       { repo := ad.repository, index_preload := ad.index_preload }, adg, []⟩ := by
  simp [mlmodel_ctor, init_repo_dir, h]

theorem c4_repository_conflict_witness :
    mlmodel_ctor envC4 adC4 adgW =
      ⟨InitOut.err MLErr.repositoryConflict, { repo := "p" }, adgW, []⟩ :=
  c4_repository_conflict envC4 adC4 adgW rfl

/-- C5: create_sim_search is idempotent: whatever the starting state, after
one call the engine field is occupied, and any second call (any dimension
and parameters) leaves the state unchanged and makes no backend call, so at
most one engine is ever constructed per repository. -/
theorem c5_create_sim_search_idempotent (dflt : FaissSE) (m : MLModel)
    (dim dim2 : Int) (p p2 : OutputConnector) :
    create_sim_search dflt (create_sim_search dflt m dim p).1 dim2 p2 =
      ((create_sim_search dflt m dim p).1, []) := by
  cases hse : m.se <;> simp [create_sim_search, hse]

/-- C6: before create_sim_search has created an engine, build_index and
remove_index are no-ops: unchanged state, no backend call, no exception
(both are total functions). -/
theorem c6_no_index_noop (m : MLModel) (h : m.se = none) :
    build_index m = (m, []) ∧ remove_index m = (m, []) := by
  simp [build_index, remove_index, h]

theorem c6_no_index_noop_witness :
    build_index { repo := "r" } = ({ repo := "r" }, []) ∧
    remove_index { repo := "r" } = ({ repo := "r" }, []) :=
  c6_no_index_noop { repo := "r" } rfl

theorem corresp_lines_error_iff (ls : List (List Char)) (h : HMap) :
    corresp_lines h ls = Except.error () ↔
      ∃ l ∈ ls, lineKey l ≠ [] ∧ stoi (String.mk (lineKey l)) = none := by
  induction ls generalizing h with
  | nil => simp [corresp_lines]
  | cons l rest ih =>
    simp only [corresp_lines]
    cases hk : (lineKey l).isEmpty with
    | true =>
      have hkeq : lineKey l = [] := by simpa using hk
      rw [if_pos (by simp [hk]), ih]
      constructor
      · rintro ⟨x, hx, hp⟩
        exact ⟨x, List.mem_cons_of_mem _ hx, hp⟩
      · rintro ⟨x, hx, hne, hnone⟩
        rcases List.mem_cons.mp hx with hxl | hxr
        · exact absurd (hxl ▸ hkeq) hne
        · exact ⟨x, hxr, hne, hnone⟩
    | false =>
      have hkeq : lineKey l ≠ [] := by simpa using hk
      rw [if_neg (by simp [hk])]
      cases hs : stoi (String.mk (lineKey l)) with
      | none => exact iff_of_true rfl ⟨l, List.mem_cons_self l rest, hkeq, hs⟩
      | some k =>
        rw [ih]
        constructor
        · rintro ⟨x, hx, hp⟩
          exact ⟨x, List.mem_cons_of_mem _ hx, hp⟩
        · rintro ⟨x, hx, hne, hnone⟩
          rcases List.mem_cons.mp hx with hxl | hxr
          · rw [hxl, hs] at hnone
            exact absurd hnone (by simp)
          · exact ⟨x, hxr, hne, hnone⟩

/-- C9: with a configured, openable correspondence file, loading fails with
the uncaught std::stoi exception precisely when some line has a non-empty
key segment that stoi cannot parse; loading is total exactly on files whose
non-empty key segments all parse as 32-bit integers. -/
theorem c9_read_corresp_stoi (env : Env) (corresp content : String) (h : HMap)
    (hc : corresp ≠ "") (ho : env.openFile corresp = some content) :
    read_corresp_file env corresp h = Except.error () ↔
      ∃ l ∈ linesOf content, lineKey l ≠ [] ∧ stoi (String.mk (lineKey l)) = none := by
  rw [read_corresp_file, if_neg hc, ho]
  exact corresp_lines_error_iff (linesOf content) h

theorem c9_read_corresp_stoi_witness :
    read_corresp_file envC9 "corresp.txt" [] = Except.error () :=
  (c9_read_corresp_stoi envC9 "corresp.txt" "3 cat\nfoo bar\n" [] (by decide) rfl).mpr
    (by decide)

/-- C3 counterexample: the derived base-name file m.tar is already staged in
the repository (short-circuit taken, compressedf reassigned to the staged
path), yet the scheme-substring test runs on that staged path, so with a
repository path containing "http://" the HTTP client IS invoked. -/
theorem c3_counterexample :
    (envC3.fsEntry (modelfOf adC3.repository "m.tar")).isSome = true ∧
    Call.fetch "http://r/m.tar" ∈ (init_repo_dir envC3 adC3 true).2 := by
  decide

/-- C3 (amended): when the derived base-name file is already staged in the
repository AND the staged path repo/base itself contains none of the three
scheme substrings, no network fetch happens (the HTTP client is never
invoked) and extraction of the staged local file into the repository is
still invoked. -/
theorem c3_staged_no_fetch (env : Env) (ad : AdArgs) (logger : Bool) (c : String)
    (hdir : env.fsEntry ad.repository ≠ some FsEntry.file)
    (hw : env.writable ad.repository = true)
    (hinit : ad.init = some c)
    (hstaged : (env.fsEntry (modelfOf ad.repository c)).isSome = true)
    (hnoscheme : hasSchemeSub (modelfOf ad.repository c) = false) :
    (∀ u, Call.fetch u ∉ (init_repo_dir env ad logger).2) ∧
    Call.uncompressCall (modelfOf ad.repository c) ad.repository ∈
      (init_repo_dir env ad logger).2 := by
  have hcomp : compressedfOf env ad.repository c = modelfOf ad.repository c := by
    simp [compressedfOf, hstaged]
  refine ⟨fun u => ?_, ?_⟩ <;>
    by_cases h0 : (env.fsEntry ad.repository).isNone && ad.create_repository <;>
    by_cases hu : env.uncompressFails (modelfOf ad.repository c) ad.repository <;>
    simp [init_repo_dir, hdir, hw, hinit, hcomp, hnoscheme, h0, hu]

theorem c3_staged_no_fetch_witness :
    Call.fetch "http://host/m.tar" ∉ (init_repo_dir envC3w adC3w true).2 ∧
    Call.uncompressCall "r/m.tar" "r" ∈ (init_repo_dir envC3w adC3w true).2 :=
  ⟨(c3_staged_no_fetch envC3w adC3w true "http://host/m.tar"
      (by decide) rfl rfl (by decide) (by decide)).1 "http://host/m.tar",
   (c3_staged_no_fetch envC3w adC3w true "http://host/m.tar"
      (by decide) rfl rfl (by decide) (by decide)).2⟩

/-- C10: with no staged base-name file in the repository, the fetch decision
is a substring test on the locator itself: a scheme substring anywhere in it
triggers a fetch attempt, and a locator with none of the three substrings
skips fetch and goes directly to extraction of the locator. -/
theorem c10_scheme_substring (env : Env) (ad : AdArgs) (logger : Bool) (c : String)
    (hdir : env.fsEntry ad.repository ≠ some FsEntry.file)
    (hw : env.writable ad.repository = true)
    (hinit : ad.init = some c)
    (hnostage : (env.fsEntry (modelfOf ad.repository c)).isSome = false) :
    (hasSchemeSub c = true → Call.fetch c ∈ (init_repo_dir env ad logger).2) ∧
    (hasSchemeSub c = false →
      (∀ u, Call.fetch u ∉ (init_repo_dir env ad logger).2) ∧
      Call.uncompressCall c ad.repository ∈ (init_repo_dir env ad logger).2) := by
  have hcomp : compressedfOf env ad.repository c = c := by
    simp [compressedfOf, hnostage]
  constructor
  · intro hsch
    cases hg : env.httpGet c <;>
      by_cases h0 : (env.fsEntry ad.repository).isNone && ad.create_repository <;>
      by_cases hu : env.uncompressFails (modelfOf ad.repository c) ad.repository <;>
      simp [init_repo_dir, hdir, hw, hinit, hcomp, hsch, hg, h0, hu]
  · intro hsch
    refine ⟨fun u => ?_, ?_⟩ <;>
      by_cases h0 : (env.fsEntry ad.repository).isNone && ad.create_repository <;>
      by_cases hu : env.uncompressFails c ad.repository <;>
      simp [init_repo_dir, hdir, hw, hinit, hcomp, hsch, h0, hu]

theorem c10_scheme_substring_witness :
    Call.fetch "/tmp/http://mirror/m.tar" ∈ (init_repo_dir envC10 adC10 true).2 ∧
    Call.fetch "/tmp/m.tar" ∉ (init_repo_dir envC10 adC10b true).2 ∧
    Call.uncompressCall "/tmp/m.tar" "r" ∈ (init_repo_dir envC10 adC10b true).2 :=
  ⟨(c10_scheme_substring envC10 adC10 true "/tmp/http://mirror/m.tar"
      (by decide) rfl rfl (by decide)).1 (by decide),
   ((c10_scheme_substring envC10 adC10b true "/tmp/m.tar"
      (by decide) rfl rfl (by decide)).2 (by decide)).1 "/tmp/m.tar",
   ((c10_scheme_substring envC10 adC10b true "/tmp/m.tar"
      (by decide) rfl rfl (by decide)).2 (by decide)).2⟩

/-- C8: when init_repo_dir runs with the null logger passed by the
MLModel(ad) and MLModel(ad, repo) constructors, every fatal branch
(repository conflict, repository not writable, archive fetch failure,
extraction failure) executes logger->error on the null pointer before its
throw (outcome nullDeref, never a thrown error), whereas the guarded
staged-archive-notice and download-info branches test the pointer first: a
run through them that avoids every fatal branch completes normally. -/
theorem c8_null_logger (env : Env) (ad : AdArgs) :
    (env.fsEntry ad.repository = some FsEntry.file →
      init_repo_dir env ad false = (InitOut.nullDeref, [])) ∧
    (env.fsEntry ad.repository ≠ some FsEntry.file →
      env.writable ad.repository = false →
      (init_repo_dir env ad false).1 = InitOut.nullDeref) ∧
    (∀ c, env.fsEntry ad.repository ≠ some FsEntry.file →
      env.writable ad.repository = true → ad.init = some c →
      hasSchemeSub (compressedfOf env ad.repository c) = true →
      env.httpGet (compressedfOf env ad.repository c) = none →
      (init_repo_dir env ad false).1 = InitOut.nullDeref) ∧
    (∀ c, env.fsEntry ad.repository ≠ some FsEntry.file →
      env.writable ad.repository = true → ad.init = some c →
      hasSchemeSub (compressedfOf env ad.repository c) = false →
      env.uncompressFails (compressedfOf env ad.repository c) ad.repository = true →
      (init_repo_dir env ad false).1 = InitOut.nullDeref) ∧
    (∀ c, env.fsEntry ad.repository ≠ some FsEntry.file →
      env.writable ad.repository = true → ad.init = some c →
      (env.fsEntry (modelfOf ad.repository c)).isSome = true →
      hasSchemeSub (modelfOf ad.repository c) = false →
      env.uncompressFails (modelfOf ad.repository c) ad.repository = false →
      (init_repo_dir env ad false).1 = InitOut.ok) ∧
    (∀ c, env.fsEntry ad.repository ≠ some FsEntry.file →
      env.writable ad.repository = true → ad.init = some c →
      hasSchemeSub (compressedfOf env ad.repository c) = true →
      (∃ content, env.httpGet (compressedfOf env ad.repository c) = some content) →
      env.uncompressFails (modelfOf ad.repository c) ad.repository = false →
      (init_repo_dir env ad false).1 = InitOut.ok) := by
  refine ⟨?_, ?_, ?_, ?_, ?_, ?_⟩
  · intro h
    simp [init_repo_dir, h]
  · intro hdir hw
    by_cases h0 : (env.fsEntry ad.repository).isNone && ad.create_repository <;>
      simp [init_repo_dir, hdir, hw, h0]
  · intro c hdir hw hinit hsch hg
    by_cases h0 : (env.fsEntry ad.repository).isNone && ad.create_repository <;>
      simp [init_repo_dir, hdir, hw, hinit, hsch, hg, h0]
  · intro c hdir hw hinit hsch hu
    by_cases h0 : (env.fsEntry ad.repository).isNone && ad.create_repository <;>
      simp [init_repo_dir, hdir, hw, hinit, hsch, hu, h0]
  · intro c hdir hw hinit hstaged hnoscheme hu
    have hcomp : compressedfOf env ad.repository c = modelfOf ad.repository c := by
      simp [compressedfOf, hstaged]
    by_cases h0 : (env.fsEntry ad.repository).isNone && ad.create_repository <;>
      simp [init_repo_dir, hdir, hw, hinit, hcomp, hnoscheme, hu, h0]
  · intro c hdir hw hinit hsch hex hu
    obtain ⟨content, hg⟩ := hex
    by_cases h0 : (env.fsEntry ad.repository).isNone && ad.create_repository <;>
      simp [init_repo_dir, hdir, hw, hinit, hsch, hg, hu, h0]

theorem c8_null_logger_witness :
    init_repo_dir envC4 adC4 false = (InitOut.nullDeref, []) ∧
    (init_repo_dir envC3w adC3w false).1 = InitOut.ok :=
  ⟨(c8_null_logger envC4 adC4).1 rfl,
   (c8_null_logger envC3w adC3w).2.2.2.2.1 "http://host/m.tar"
     (by decide) rfl rfl (by decide) (by decide) rfl⟩

end DD
